import Mathlib

/-!
Shallow embedding of the weather-forecast service core:
the provider-response adapter (WeatherResponseAdapter), the forecast
repository (ForecastRepository over the forecasts table with its unique
(city, state, forecast_date) constraint), and the cache-first orchestration
(ForecastService.getForecast).

Modelling conventions:
* Calendar dates are UTC day numbers (Nat): the code derives the day key
  with toISOString().split(T)[0], which for the fixed-width YYYY-MM-DD
  format sorts lexicographically exactly as the day number sorts
  numerically, so a Nat day number is a faithful key.
* Unix timestamps are seconds (Nat); the hour of a timestamp is
  (dt / 3600) % 24.
* JS numbers are modelled as rationals; Math.round is floor (x + 1/2).
* Fallible code returns Except; absent values are Option.
* The JS truthiness checks (x || null, x ? a : b) are made explicit where
  they matter: a numeric 0 and an empty string are falsy, while the string
  produced by Number.prototype.toString is never empty (so a numeric 0
  that goes through toString before the || survives as the truthy "0").
-/

/-- JS Math.round: round half toward positive infinity. -/
def jsRound (q : ℚ) : ℤ := (q + 1/2).floor

/-- Math.round(x * 10) / 10 — round to one decimal place. -/
def round1 (q : ℚ) : ℚ := (jsRound (q * 10) : ℚ) / 10

/-- JS `n || null` on an optional number: 0 is falsy and becomes null. -/
def jsFalsyNum (o : Option ℚ) : Option ℚ :=
  match o with
  | none => none
  | some q => if q = 0 then none else some q

/-- JS `s || null` on an optional string: the empty string is falsy and becomes null. -/
def jsFalsyStr (o : Option String) : Option String :=
  match o with
  | none => none
  | some s => if s = "" then none else some s

/-- ASCII lowering of one character (what toLowerCase does on the ASCII
identities this service handles). -/
def lowerChar (c : Char) : Char :=
  if 'A' ≤ c ∧ c ≤ 'Z' then Char.ofNat (c.toNat + 32) else c

/-- String.prototype.toLowerCase, character by character. -/
def jsToLower (s : String) : String := ⟨s.data.map lowerChar⟩

/-- JS whitespace for trim purposes. -/
def isSpaceChar (c : Char) : Bool :=
  c = ' ' || c = '\t' || c = '\n' || c = '\r'

/-- String.prototype.trim: strip leading and trailing whitespace. -/
def jsTrim (s : String) : String :=
  ⟨((s.data.dropWhile isSpaceChar).reverse.dropWhile isSpaceChar).reverse⟩

/-- Domain entity Forecast (Forecast.entity.ts). Dates are UTC day numbers. -/
structure Forecast where
  id : Option ℕ
  city : String
  state : String
  forecastDate : ℕ
  temperature : ℚ
  feelsLike : Option ℚ
  conditions : String
  description : Option String
  precipitationChance : Option ℚ
  humidity : Option ℚ
  windSpeed : Option ℚ
  iconCode : Option String
deriving DecidableEq

/-- One entry of the weather array of an OpenWeatherMap sample. -/
structure WeatherCond where
  main : String
  description : String
  icon : String
deriving DecidableEq

/-- One OpenWeatherMapForecastItem: a 3-hour provider sample. -/
structure Sample where
  dt : ℕ
  temp : ℚ
  feels_like : ℚ
  humidity : ℚ
  weather : List WeatherCond
  wind_speed : ℚ
  pop : ℚ
deriving DecidableEq

/-- Raw provider payload; `list` is none when the field is missing. -/
structure RawResponse where
  list : Option (List Sample)

/-- Errors the adapter can raise: the explicit invalid-response check at the
top of toDomain, and the untyped runtime failures of duck-typed access
(reduce of an empty array, reading field 0 of an empty weather array). -/
inductive AdapterErr
  | invalidResponse
  | typeErr
deriving DecidableEq

/-- UTC day number of a Unix timestamp (toISOString().split(T)[0]). -/
def dayOf (dt : ℕ) : ℕ := dt / 86400

/-- Hour-of-day of a Unix timestamp (getHours on a UTC clock). -/
def hourOf (dt : ℕ) : ℕ := dt / 3600 % 24

/-- Distance of a sample's hour from noon. -/
def noonDiff (s : Sample) : ℕ := ((hourOf s.dt : ℤ) - 12).natAbs

/-- WeatherResponseAdapter.selectNoonForecast: left-to-right reduce keeping
the current sample only when its distance to noon is strictly smaller. -/
def selectNoonForecast (s : Sample) (rest : List Sample) : Sample :=
  rest.foldl (fun closest current =>
    if noonDiff current < noonDiff closest then current else closest) s

/-- Distinct day keys in first-encounter order (the JS Map keeps insertion
order; a new key is appended when first seen). -/
def distinctKeys (l : List Sample) : List ℕ :=
  l.foldl (fun ks s => if dayOf s.dt ∈ ks then ks else ks ++ [dayOf s.dt]) []

/-- The bucket of samples sharing day key `k`, in encounter order. -/
def dayGroup (l : List Sample) (k : ℕ) : List Sample :=
  l.filter (fun s => decide (dayOf s.dt = k))

/-- Build the ForecastRecord of one day bucket: select the sample closest to
noon, then map its fields (rounding per the source). The empty-bucket and
empty-weather cases are the untyped runtime failures of the JS code. -/
def mkDayRecord (city state : String) (k : ℕ) (group : List Sample) :
    Except AdapterErr Forecast :=
  match group with
  | [] => .error .typeErr
  | s :: rest =>
    match (selectNoonForecast s rest).weather with
    | [] => .error .typeErr
    | w :: _ =>
      .ok { id := none
            city := jsToLower city
            state := jsToLower state
            forecastDate := k
            temperature := round1 (selectNoonForecast s rest).temp
            feelsLike := some (round1 (selectNoonForecast s rest).feels_like)
            conditions := w.main
            description := some w.description
            precipitationChance :=
              some ((jsRound ((selectNoonForecast s rest).pop * 100) : ℤ) : ℚ)
            humidity := some (selectNoonForecast s rest).humidity
            windSpeed := some (round1 (selectNoonForecast s rest).wind_speed)
            iconCode := some w.icon }

/-- The adapter's main loop over the first min(days, #keys) sorted day keys;
any failure aborts the whole conversion, mirroring a thrown exception. -/
def collectDays (city state : String) (l : List Sample) :
    List ℕ → Except AdapterErr (List Forecast)
  | [] => .ok []
  | k :: ks =>
    match mkDayRecord city state k (dayGroup l k) with
    | .error e => .error e
    | .ok r =>
      match collectDays city state l ks with
      | .error e => .error e
      | .ok rs => .ok (r :: rs)

/-- WeatherResponseAdapter.toDomain. -/
def toDomain (resp : RawResponse) (city state : String) (days : ℕ) :
    Except AdapterErr (List Forecast) :=
  match resp.list with
  | none => .error .invalidResponse
  | some [] => .error .invalidResponse
  | some l =>
    collectDays city state l (((distinctKeys l).insertionSort (· ≤ ·)).take days)

/-! ### Repository (ForecastRepository over the forecasts table) -/

/-- The columns written by an INSERT (mapToDatabase's output): everything but
the DB-generated id. -/
structure DbInsert where
  city : String
  state : String
  forecast_date : ℕ
  temperature : ℚ
  feels_like : Option ℚ
  conditions : String
  description : Option String
  precipitation_chance : Option ℚ
  humidity : Option ℚ
  wind_speed : Option ℚ
  icon_code : Option String
deriving DecidableEq

/-- A persisted row of the forecasts table. -/
structure ForecastRow where
  id : ℕ
  city : String
  state : String
  forecast_date : ℕ
  temperature : ℚ
  feels_like : Option ℚ
  conditions : String
  description : Option String
  precipitation_chance : Option ℚ
  humidity : Option ℚ
  wind_speed : Option ℚ
  icon_code : Option String
deriving DecidableEq

/-- Attach a row id to inserted columns (what INSERT or DO UPDATE leaves). -/
def withId (id : ℕ) (d : DbInsert) : ForecastRow :=
  { id := id, city := d.city, state := d.state, forecast_date := d.forecast_date
    temperature := d.temperature, feels_like := d.feels_like
    conditions := d.conditions, description := d.description
    precipitation_chance := d.precipitation_chance, humidity := d.humidity
    wind_speed := d.wind_speed, icon_code := d.icon_code }

/-- Project the non-id columns of a row. -/
def fieldsOf (r : ForecastRow) : DbInsert :=
  { city := r.city, state := r.state, forecast_date := r.forecast_date
    temperature := r.temperature, feels_like := r.feels_like
    conditions := r.conditions, description := r.description
    precipitation_chance := r.precipitation_chance, humidity := r.humidity
    wind_speed := r.wind_speed, icon_code := r.icon_code }

/-- The unique-constraint key of a row. -/
def rowKey (r : ForecastRow) : String × String × ℕ :=
  (r.city, r.state, r.forecast_date)

/-- The conflict key of an insert. -/
def insKey (d : DbInsert) : String × String × ℕ :=
  (d.city, d.state, d.forecast_date)

/-- ForecastRepository.mapToDatabase. The numeric optionals go through
?.toString() before the || null, and a number's string is never empty, so
they pass through unchanged (some 0 stays some 0); humidity is a bare
number, so `humidity || null` turns 0 into null; description and icon_code
are bare strings, so the empty string becomes null. -/
def mapToDatabase (f : Forecast) : DbInsert :=
  { city := jsToLower f.city
    state := jsToLower f.state
    forecast_date := f.forecastDate
    temperature := f.temperature
    feels_like := f.feelsLike
    conditions := f.conditions
    description := jsFalsyStr f.description
    precipitation_chance := f.precipitationChance
    humidity := jsFalsyNum f.humidity
    wind_speed := f.windSpeed
    icon_code := jsFalsyStr f.iconCode }

/-- ForecastRepository.mapToDomain. The pg driver returns DECIMAL columns as
nonempty strings, so the JS truthiness test on them only distinguishes
null; humidity is an INTEGER column returned as a number, so
`row.humidity || undefined` also maps a stored 0 to undefined. -/
def mapToDomain (r : ForecastRow) : Forecast :=
  { id := some r.id
    city := r.city
    state := r.state
    forecastDate := r.forecast_date
    temperature := r.temperature
    feelsLike := r.feels_like
    conditions := r.conditions
    description := jsFalsyStr r.description
    precipitationChance := r.precipitation_chance
    humidity := jsFalsyNum r.humidity
    windSpeed := r.wind_speed
    iconCode := jsFalsyStr r.icon_code }

/-- Fresh id for a new row (the DB sequence; any deterministic fresh value). -/
def nextId (store : List ForecastRow) : ℕ := store.length + 1

/-- INSERT ... ON CONFLICT (city, state, forecast_date) DO UPDATE of one row:
if a row with the conflict key exists its non-id columns are overwritten,
otherwise a new row is appended. -/
def upsertRow (store : List ForecastRow) (d : DbInsert) : List ForecastRow :=
  if store.any (fun r => decide (rowKey r = insKey d)) then
    store.map (fun r => if rowKey r = insKey d then withId r.id d else r)
  else
    store ++ [withId (nextId store) d]

/-- ForecastRepository.save: map to a row and upsert it. -/
def saveStore (store : List ForecastRow) (f : Forecast) : List ForecastRow :=
  upsertRow store (mapToDatabase f)

/-- ForecastRepository.findByLocationAndDate: first row matching the
lowercased city/state and the date, mapped to the domain entity. -/
def findOneRepo (store : List ForecastRow) (city state : String) (date : ℕ) :
    Option Forecast :=
  (store.find? (fun r =>
    decide (r.city = jsToLower city ∧ r.state = jsToLower state ∧
            r.forecast_date = date))).map mapToDomain

inductive DbErr
  | batchConflict
deriving DecidableEq

/-- ForecastRepository.saveMany: a single multi-row INSERT ... ON CONFLICT DO
UPDATE statement. PostgreSQL rejects the whole statement when two rows of
the batch share the conflict key (ON CONFLICT DO UPDATE cannot affect a row
twice); otherwise every row is upserted. A single statement is atomic. -/
def saveManyStore (store : List ForecastRow) (fs : List Forecast) :
    Except DbErr (List ForecastRow) :=
  let ds := fs.map mapToDatabase
  if (ds.map insKey).Nodup then .ok (ds.foldl upsertRow store)
  else .error .batchConflict

/-- The store state after saveMany: a failed statement is rolled back and
leaves the store unchanged. -/
def storeAfterSaveMany (store : List ForecastRow) (fs : List Forecast) :
    List ForecastRow :=
  match saveManyStore store fs with
  | .error _ => store
  | .ok store2 => store2

/-- The uniqueness invariant enforced by the table's unique constraint. -/
def UniqueStore (store : List ForecastRow) : Prop := (store.map rowKey).Nodup

/-- Number of rows holding identity key `k`. -/
def countKey : List ForecastRow → (String × String × ℕ) → ℕ
  | [], _ => 0
  | r :: rs, k => (if rowKey r = k then 1 else 0) + countKey rs k

/-! ### Orchestration (ForecastService.getForecast) -/

inductive SvcErr
  | providerFail
deriving DecidableEq

/-- Collaborator calls made by the service, in call order. -/
inductive StoreOp
  | findOne (city state : String) (date : ℕ)
  | save (r : Forecast)
  | saveMany (rs : List Forecast)
  | providerFetch (city state : String) (days : ℕ)
deriving DecidableEq

/-- The service's collaborators: the persisted rows and the provider client
(IWeatherClient.getForecast, which may fail). -/
structure ServiceEnv where
  store : List ForecastRow
  provider : String → String → ℕ → Except SvcErr (List Forecast)

/-- ForecastService.getForecast: normalize, cache-check when a date is given,
otherwise or on a miss fetch a 3-day window from the provider and
post-filter by the requested date. Returns the result together with the
trace of collaborator calls. -/
def getForecast (env : ServiceEnv) (city state : String) (date? : Option ℕ) :
    Except SvcErr (List Forecast) × List StoreOp :=
  let nc := (jsTrim (jsToLower city))
  let ns := (jsTrim (jsToLower state))
  match date? with
  | some date =>
    match findOneRepo env.store nc ns date with
    | some cached => (.ok [cached], [.findOne nc ns date])
    | none =>
      match env.provider nc ns 3 with
      | .error e => (.error e, [.findOne nc ns date, .providerFetch nc ns 3])
      | .ok fs =>
        match fs.find? (fun f => decide (f.forecastDate = date)) with
        | some m => (.ok [m], [.findOne nc ns date, .providerFetch nc ns 3])
        | none => (.ok [], [.findOne nc ns date, .providerFetch nc ns 3])
  | none =>
    match env.provider nc ns 3 with
    | .error e => (.error e, [.providerFetch nc ns 3])
    | .ok fs => (.ok fs, [.providerFetch nc ns 3])

/-- Apply the store-mutating effect of one collaborator call. -/
def applyOp (store : List ForecastRow) : StoreOp → List ForecastRow
  | .save r => saveStore store r
  | .saveMany rs => storeAfterSaveMany store rs
  | .findOne _ _ _ => store
  | .providerFetch _ _ _ => store

/-- Apply a trace of collaborator calls to the store. -/
def applyOps (store : List ForecastRow) (ops : List StoreOp) : List ForecastRow :=
  ops.foldl applyOp store

/-! ### Concrete fixtures used by witnesses -/

/-- A stored row for (fresno, california, day 20417 = 2025-11-25). -/
def row0 : ForecastRow :=
  { id := 1, city := "fresno", state := "california", forecast_date := 20417
    temperature := 18, feels_like := none, conditions := "Clear"
    description := none, precipitation_chance := none, humidity := none
    wind_speed := none, icon_code := none }

/-- Environment whose store holds row0; the provider returns nothing. -/
def env0 : ServiceEnv := { store := [row0], provider := fun _ _ _ => .ok [] }

/-- A provider-produced record for day 20418. -/
def fc1 : Forecast :=
  { id := none, city := "fresno", state := "california", forecastDate := 20418
    temperature := 20, feelsLike := none, conditions := "Clouds"
    description := none, precipitationChance := none, humidity := none
    windSpeed := none, iconCode := none }

/-- Environment with an empty store; the provider returns a window that only
covers day 20418. -/
def env1 : ServiceEnv := { store := [], provider := fun _ _ _ => .ok [fc1] }

/-! ### C1, C4, C5: orchestration -/

/-- C1: cache-first retrieval. When the store resolves the normalized
identity, getForecast returns exactly that single stored record and its
collaborator trace is the single cache lookup (so the provider client is
never invoked); when the lookup misses, the trace contains a provider
fetch for a 3-day window. -/
theorem getForecast_cache_first (env : ServiceEnv) (city state : String) (date : ℕ) :
    (∀ r, findOneRepo env.store (jsTrim (jsToLower city)) (jsTrim (jsToLower state)) date = some r →
      getForecast env city state (some date) =
        (.ok [r], [.findOne (jsTrim (jsToLower city)) (jsTrim (jsToLower state)) date])) ∧
    (findOneRepo env.store (jsTrim (jsToLower city)) (jsTrim (jsToLower state)) date = none →
      StoreOp.providerFetch (jsTrim (jsToLower city)) (jsTrim (jsToLower state)) 3 ∈
        (getForecast env city state (some date)).2) := by
  constructor
  · intro r h
    simp [getForecast, h]
  · intro h
    cases henv : env.provider (jsTrim (jsToLower city)) (jsTrim (jsToLower state)) 3 with
    | error e => simp [getForecast, h, henv]
    | ok fs =>
      cases hf : fs.find? (fun f => decide (f.forecastDate = date)) with
      | none => simp [getForecast, h, henv, hf]
      | some m => simp [getForecast, h, henv, hf]

/-- Witness for C1 at a concrete environment: a store hit for
(fresno, california, 20417) is returned without any provider fetch. -/
theorem getForecast_cache_first_witness :
    findOneRepo env0.store (jsTrim (jsToLower "Fresno")) (jsTrim (jsToLower " California ")) 20417 =
      some (mapToDomain row0) ∧
    getForecast env0 "Fresno" " California " (some 20417) =
      (.ok [mapToDomain row0],
       [.findOne (jsTrim (jsToLower "Fresno")) (jsTrim (jsToLower " California ")) 20417]) :=
  ⟨by decide,
   (getForecast_cache_first env0 "Fresno" " California " 20417).1
     (mapToDomain row0) (by decide)⟩

/-- C4: retrieval never persists. For every input and store state, the
collaborator trace of getForecast contains no save and no saveMany, and
replaying the trace against the store leaves it unchanged. -/
theorem getForecast_no_persist (env : ServiceEnv) (city state : String)
    (date? : Option ℕ) :
    (∀ r, StoreOp.save r ∉ (getForecast env city state date?).2) ∧
    (∀ rs, StoreOp.saveMany rs ∉ (getForecast env city state date?).2) ∧
    applyOps env.store (getForecast env city state date?).2 = env.store := by
  cases date? with
  | none =>
    cases henv : env.provider (jsTrim (jsToLower city)) (jsTrim (jsToLower state)) 3 with
    | error e => simp [getForecast, henv, applyOps, applyOp]
    | ok fs => simp [getForecast, henv, applyOps, applyOp]
  | some d =>
    cases hf : findOneRepo env.store (jsTrim (jsToLower city)) (jsTrim (jsToLower state)) d with
    | some r => simp [getForecast, hf, applyOps, applyOp]
    | none =>
      cases henv : env.provider (jsTrim (jsToLower city)) (jsTrim (jsToLower state)) 3 with
      | error e => simp [getForecast, hf, henv, applyOps, applyOp]
      | ok fs =>
        cases hff : fs.find? (fun f => decide (f.forecastDate = d)) with
        | none => simp [getForecast, hf, henv, hff, applyOps, applyOp]
        | some m => simp [getForecast, hf, henv, hff, applyOps, applyOp]

/-- C5: a date miss on both the store and the provider window is an empty
success, not an error. -/
theorem getForecast_date_miss_empty (env : ServiceEnv) (city state : String)
    (date : ℕ) (fs : List Forecast)
    (h1 : findOneRepo env.store (jsTrim (jsToLower city)) (jsTrim (jsToLower state)) date = none)
    (h2 : env.provider (jsTrim (jsToLower city)) (jsTrim (jsToLower state)) 3 = .ok fs)
    (h3 : ∀ f ∈ fs, f.forecastDate ≠ date) :
    (getForecast env city state (some date)).1 = .ok [] := by
  have hf : fs.find? (fun f => decide (f.forecastDate = date)) = none := by
    rw [List.find?_eq_none]
    intro f hfmem
    simpa using h3 f hfmem
  simp [getForecast, h1, h2, hf]

/-- Witness for C5: an empty store and a provider window for day 20418 make
the request for day 20417 resolve to an empty successful result. -/
theorem getForecast_date_miss_empty_witness :
    (findOneRepo env1.store (jsTrim (jsToLower "fresno")) (jsTrim (jsToLower "california")) 20417 = none ∧
     env1.provider (jsTrim (jsToLower "fresno")) (jsTrim (jsToLower "california")) 3 = .ok [fc1] ∧
     (∀ f ∈ [fc1], f.forecastDate ≠ 20417)) ∧
    (getForecast env1 "fresno" "california" (some 20417)).1 = .ok [] :=
  ⟨⟨by decide, rfl, by decide⟩,
   getForecast_date_miss_empty env1 "fresno" "california" 20417 [fc1]
     (by decide) rfl (by decide)⟩

/-! ### C2: noon selection -/

/-- The reduce of selectNoonForecast picks the first element (in encounter
order) attaining the minimal distance to noon: the input splits as
l₁ ++ picked :: l₂ with everything before it strictly farther from noon and
everything after it no nearer. -/
theorem selectNoon_decomp (rest : List Sample) : ∀ s : Sample, ∃ l₁ l₂,
    s :: rest = l₁ ++ selectNoonForecast s rest :: l₂ ∧
    (∀ x ∈ l₁, noonDiff (selectNoonForecast s rest) < noonDiff x) ∧
    (∀ x ∈ l₂, noonDiff (selectNoonForecast s rest) ≤ noonDiff x) := by
  induction rest with
  | nil =>
    intro s
    exact ⟨[], [], rfl, by simp, by simp⟩
  | cons x xs ih =>
    intro s
    have hstep : selectNoonForecast s (x :: xs) =
        selectNoonForecast (if noonDiff x < noonDiff s then x else s) xs := rfl
    by_cases h : noonDiff x < noonDiff s
    · rw [hstep, if_pos h]
      obtain ⟨l₁, l₂, hdec, hlt, hle⟩ := ih x
      have hrx : noonDiff (selectNoonForecast x xs) ≤ noonDiff x := by
        cases l₁ with
        | nil =>
          simp only [List.nil_append] at hdec
          injection hdec with h1 h2
          exact le_of_eq (congrArg noonDiff h1.symm)
        | cons a t =>
          have hax : x = a := by
            simpa using congrArg (fun l => l.head?) hdec
          refine le_of_lt (hlt x ?_)
          rw [hax]
          exact List.mem_cons_self a t
      refine ⟨s :: l₁, l₂, ?_, ?_, hle⟩
      · rw [List.cons_append, ← hdec]
      · intro y hy
        rcases List.mem_cons.mp hy with rfl | hy2
        · exact lt_of_le_of_lt hrx h
        · exact hlt y hy2
    · rw [hstep, if_neg h]
      push_neg at h
      obtain ⟨l₁, l₂, hdec, hlt, hle⟩ := ih s
      cases l₁ with
      | nil =>
        simp only [List.nil_append] at hdec
        injection hdec with h1 h2
        have hr : selectNoonForecast s xs = s := h1.symm
        have hl₂ : l₂ = xs := h2.symm
        refine ⟨[], x :: xs, by rw [List.nil_append, hr], by simp, ?_⟩
        intro y hy
        rcases List.mem_cons.mp hy with rfl | hy2
        · rw [hr]; exact h
        · exact hle y (hl₂ ▸ hy2)
      | cons a t =>
        have has : s = a := by
          simpa using congrArg (fun l => l.head?) hdec
        have hxs : xs = t ++ selectNoonForecast s xs :: l₂ := by
          have := congrArg (fun l => l.tail) hdec
          simpa using this
        have hrs : noonDiff (selectNoonForecast s xs) < noonDiff s := by
          refine hlt s ?_
          rw [has]
          exact List.mem_cons_self a t
        refine ⟨s :: x :: t, l₂, ?_, ?_, hle⟩
        · rw [List.cons_append, List.cons_append, ← hxs]
        · intro y hy
          rcases List.mem_cons.mp hy with rfl | hy2
          · exact hrs
          · rcases List.mem_cons.mp hy2 with rfl | hy3
            · exact lt_of_lt_of_le hrs h
            · exact hlt y (List.mem_cons_of_mem a hy3)

/-- The selected sample is one of the day's samples. -/
theorem selectNoon_mem (s : Sample) (rest : List Sample) :
    selectNoonForecast s rest ∈ s :: rest := by
  obtain ⟨l₁, l₂, hdec, _, _⟩ := selectNoon_decomp rest s
  rw [hdec]
  exact List.mem_append.mpr (Or.inr (List.mem_cons_self _ _))

/-- A sample at hour `h` (UTC) of day 0, tagged with temperature `t`. -/
def sampleAt (h : ℕ) (t : ℚ) : Sample :=
  { dt := h * 3600, temp := t, feels_like := t, humidity := 50
    weather := [{ main := "Clear", description := "clear sky", icon := "01d" }]
    wind_speed := 3, pop := 0 }

/-- C2: among one day's samples, the one whose hour is numerically closest
to noon is selected, and on a tie the earlier-encountered sample wins
(the input decomposes around the selected sample with strictly-farther
samples before it and no-nearer samples after it). In particular hours
9/12/15 select the 12:00 sample, and hours 10/14 select the 10:00 one. -/
theorem selectNoonForecast_nearest_noon :
    (∀ (s : Sample) (rest : List Sample), ∃ l₁ l₂,
      s :: rest = l₁ ++ selectNoonForecast s rest :: l₂ ∧
      (∀ x ∈ l₁, noonDiff (selectNoonForecast s rest) < noonDiff x) ∧
      (∀ x ∈ l₂, noonDiff (selectNoonForecast s rest) ≤ noonDiff x)) ∧
    selectNoonForecast (sampleAt 9 9) [sampleAt 12 12, sampleAt 15 15] =
      sampleAt 12 12 ∧
    selectNoonForecast (sampleAt 10 10) [sampleAt 14 14] = sampleAt 10 10 := by
  refine ⟨fun s rest => selectNoon_decomp rest s, by decide, by decide⟩

/-! ### Repository lemmas -/

theorem rowKey_withId (id : ℕ) (d : DbInsert) : rowKey (withId id d) = insKey d := rfl

theorem fieldsOf_withId (id : ℕ) (d : DbInsert) : fieldsOf (withId id d) = d := rfl

/-- upsertRow in the conflicting case rewrites the key-matching rows. -/
theorem upsert_present (store : List ForecastRow) (d : DbInsert)
    (h : ∃ r ∈ store, rowKey r = insKey d) :
    upsertRow store d =
      store.map (fun r => if rowKey r = insKey d then withId r.id d else r) := by
  unfold upsertRow
  rw [if_pos]
  rw [List.any_eq_true]
  obtain ⟨r, hr, hrk⟩ := h
  exact ⟨r, hr, by simpa using hrk⟩

/-- upsertRow in the fresh case appends one new row. -/
theorem upsert_absent (store : List ForecastRow) (d : DbInsert)
    (h : ∀ r ∈ store, rowKey r ≠ insKey d) :
    upsertRow store d = store ++ [withId (nextId store) d] := by
  unfold upsertRow
  rw [if_neg]
  intro hany
  rw [List.any_eq_true] at hany
  obtain ⟨r, hr, hrk⟩ := hany
  exact h r hr (by simpa using hrk)

theorem countKey_append (l₁ l₂ : List ForecastRow) (k : String × String × ℕ) :
    countKey (l₁ ++ l₂) k = countKey l₁ k + countKey l₂ k := by
  induction l₁ with
  | nil => simp [countKey]
  | cons r rs ih => simp [countKey, ih]; ring

theorem countKey_eq_zero (store : List ForecastRow) (k : String × String × ℕ)
    (h : ∀ r ∈ store, rowKey r ≠ k) : countKey store k = 0 := by
  induction store with
  | nil => rfl
  | cons r rs ih =>
    rw [countKey, if_neg (h r (List.mem_cons_self r rs))]
    simpa using ih fun r2 hr2 => h r2 (List.mem_cons_of_mem r hr2)

theorem countKey_pos_of_mem (store : List ForecastRow) (r : ForecastRow)
    (k : String × String × ℕ) (hr : r ∈ store) (hk : rowKey r = k) :
    1 ≤ countKey store k := by
  induction store with
  | nil => cases hr
  | cons r2 rs ih =>
    rcases List.mem_cons.mp hr with rfl | hr2
    · rw [countKey, if_pos hk]
      omega
    · rw [countKey]
      have := ih hr2
      omega

theorem countKey_le_one (store : List ForecastRow) (hu : UniqueStore store)
    (k : String × String × ℕ) : countKey store k ≤ 1 := by
  induction store with
  | nil => simp [countKey]
  | cons r rs ih =>
    rw [UniqueStore, List.map_cons, List.nodup_cons] at hu
    rw [countKey]
    by_cases hk : rowKey r = k
    · rw [if_pos hk]
      have hz : countKey rs k = 0 := by
        refine countKey_eq_zero rs k fun r2 hr2 hk2 => hu.1 ?_
        rw [← hk2] at hk
        rw [hk]
        exact List.mem_map.mpr ⟨r2, hr2, hk2 ▸ rfl⟩
      omega
    · rw [if_neg hk]
      have := ih hu.2
      omega

/-- Overwriting key-matching rows does not change the key multiset. -/
theorem countKey_overwrite (store : List ForecastRow) (d : DbInsert)
    (k : String × String × ℕ) :
    countKey (store.map (fun r => if rowKey r = insKey d then withId r.id d else r)) k =
      countKey store k := by
  induction store with
  | nil => rfl
  | cons r rs ih =>
    by_cases hr : rowKey r = insKey d
    · simp [countKey, hr, rowKey_withId, ih]
    · simp only [List.map_cons, if_neg hr, countKey, ih]

/-- Overwriting key-matching rows preserves the row-key list itself. -/
theorem mapKeys_overwrite (store : List ForecastRow) (d : DbInsert) :
    (store.map (fun r => if rowKey r = insKey d then withId r.id d else r)).map rowKey =
      store.map rowKey := by
  induction store with
  | nil => rfl
  | cons r rs ih =>
    by_cases hr : rowKey r = insKey d
    · simp [hr, rowKey_withId, ih]
    · simp only [List.map_cons, if_neg hr, ih]

/-! ### C3: upsert semantics of save -/

/-- C3: save is insert-or-replace on the unique identity. Under the table's
uniqueness invariant, saving leaves the invariant intact, leaves exactly
one row holding the saved identity, does not disturb the row count of any
other identity, fully overwrites the non-identity columns of whatever row
holds that identity, keeps the row count unchanged when the identity
already existed, and appends exactly one fresh row when it did not. -/
theorem save_unique_upsert (store : List ForecastRow) (f : Forecast)
    (hu : UniqueStore store) :
    UniqueStore (saveStore store f) ∧
    countKey (saveStore store f) (insKey (mapToDatabase f)) = 1 ∧
    (∀ k, k ≠ insKey (mapToDatabase f) →
      countKey (saveStore store f) k = countKey store k) ∧
    (∀ r ∈ saveStore store f, rowKey r = insKey (mapToDatabase f) →
      fieldsOf r = mapToDatabase f) ∧
    ((∃ r ∈ store, rowKey r = insKey (mapToDatabase f)) →
      (saveStore store f).length = store.length) ∧
    ((∀ r ∈ store, rowKey r ≠ insKey (mapToDatabase f)) →
      saveStore store f = store ++ [withId (nextId store) (mapToDatabase f)]) := by
  set d := mapToDatabase f with hd
  by_cases hpres : ∃ r ∈ store, rowKey r = insKey d
  · have heq := upsert_present store d hpres
    have hkeys : (saveStore store f).map rowKey = store.map rowKey := by
      rw [saveStore, ← hd, heq]
      exact mapKeys_overwrite store d
    refine ⟨?_, ?_, ?_, ?_, ?_, ?_⟩
    · rw [UniqueStore, hkeys]
      exact hu
    · have h1 : countKey (saveStore store f) (insKey d) = countKey store (insKey d) := by
        rw [saveStore, ← hd, heq]
        exact countKey_overwrite store d (insKey d)
      obtain ⟨r, hr, hrk⟩ := hpres
      have hle := countKey_le_one store hu (insKey d)
      have hge := countKey_pos_of_mem store r (insKey d) hr hrk
      omega
    · intro k _
      rw [saveStore, ← hd, heq]
      exact countKey_overwrite store d k
    · intro r hr hrk
      rw [saveStore, ← hd, heq] at hr
      obtain ⟨r2, _, hmap⟩ := List.mem_map.mp hr
      by_cases h2 : rowKey r2 = insKey d
      · rw [if_pos h2] at hmap
        rw [← hmap]
        rfl
      · rw [if_neg h2] at hmap
        rw [← hmap] at hrk
        exact absurd hrk h2
    · intro _
      rw [saveStore, ← hd, heq]
      exact store.length_map _
    · intro habs
      obtain ⟨r, hr, hrk⟩ := hpres
      exact absurd hrk (habs r hr)
  · push_neg at hpres
    have heq := upsert_absent store d hpres
    refine ⟨?_, ?_, ?_, ?_, ?_, ?_⟩
    · rw [UniqueStore, saveStore, ← hd, heq, List.map_append]
      rw [List.nodup_append]
      refine ⟨hu, by simp, ?_⟩
      intro k hk hk2
      simp only [List.map_cons, List.map_nil, List.mem_cons, List.not_mem_nil,
        or_false, rowKey_withId] at hk2
      obtain ⟨r, hr, hrk⟩ := List.mem_map.mp hk
      exact hpres r hr (by rw [hrk, hk2])
    · rw [saveStore, ← hd, heq, countKey_append]
      rw [countKey_eq_zero store (insKey d) hpres]
      simp [countKey, rowKey_withId]
    · intro k hk
      rw [saveStore, ← hd, heq, countKey_append]
      have : countKey [withId (nextId store) d] k = 0 := by
        refine countKey_eq_zero _ k ?_
        intro r hr
        rw [List.mem_singleton] at hr
        rw [hr, rowKey_withId]
        exact fun h => hk h.symm
      omega
    · intro r hr hrk
      rw [saveStore, ← hd, heq] at hr
      rcases List.mem_append.mp hr with h1 | h2
      · exact absurd hrk (hpres r h1)
      · rw [List.mem_singleton] at h2
        rw [h2]
        rfl
    · intro hex
      obtain ⟨r, hr, hrk⟩ := hex
      exact absurd hrk (hpres r hr)
    · intro _
      rw [saveStore, ← hd, heq]

/-- A second record under the row0 identity (different non-identity fields). -/
def fc2 : Forecast :=
  { id := none, city := "fresno", state := "california", forecastDate := 20417
    temperature := 21, feelsLike := some 19, conditions := "Rain"
    description := some "light rain", precipitationChance := some 80
    humidity := some 70, windSpeed := some 5, iconCode := some "10d" }

/-- Witness for C3: saving fc2 over the store [row0], which already holds the
(fresno, california, 20417) identity. -/
theorem save_unique_upsert_witness :
    UniqueStore [row0] ∧
    (UniqueStore (saveStore [row0] fc2) ∧
     countKey (saveStore [row0] fc2) (insKey (mapToDatabase fc2)) = 1 ∧
     (∀ k, k ≠ insKey (mapToDatabase fc2) →
       countKey (saveStore [row0] fc2) k = countKey [row0] k) ∧
     (∀ r ∈ saveStore [row0] fc2, rowKey r = insKey (mapToDatabase fc2) →
       fieldsOf r = mapToDatabase fc2) ∧
     ((∃ r ∈ [row0], rowKey r = insKey (mapToDatabase fc2)) →
       (saveStore [row0] fc2).length = [row0].length) ∧
     ((∀ r ∈ [row0], rowKey r ≠ insKey (mapToDatabase fc2)) →
       saveStore [row0] fc2 = [row0] ++ [withId (nextId [row0]) (mapToDatabase fc2)])) :=
  ⟨by unfold UniqueStore; decide, save_unique_upsert [row0] fc2 (by unfold UniqueStore; decide)⟩

/-- Rows of the store holding identity key `k` (first one), as the SQL
lookup by the unique key sees them. -/
def findRowByKey (store : List ForecastRow) (k : String × String × ℕ) :
    Option ForecastRow :=
  store.find? (fun r => decide (rowKey r = k))

theorem find?_append_skip {α : Type} (l₁ l₂ : List α) (p : α → Bool)
    (h : ∀ a ∈ l₁, ¬ p a = true) : (l₁ ++ l₂).find? p = l₂.find? p := by
  induction l₁ with
  | nil => rfl
  | cons a t ih =>
    rw [List.cons_append, List.find?_cons_of_neg _ (h a (List.mem_cons_self a t))]
    exact ih fun b hb => h b (List.mem_cons_of_mem a hb)

theorem find?_append_single {α : Type} (l : List α) (a : α) (p : α → Bool)
    (ha : ¬ p a = true) : (l ++ [a]).find? p = l.find? p := by
  induction l with
  | nil =>
    rw [List.nil_append, List.find?_cons_of_neg _ ha]
  | cons b t ih =>
    cases hpb : p b
    · rw [List.cons_append, List.find?_cons_of_neg _ (by simp [hpb]),
        List.find?_cons_of_neg _ (by simp [hpb]), ih]
    · rw [List.cons_append, List.find?_cons_of_pos _ hpb, List.find?_cons_of_pos _ hpb]

/-- In the conflict branch, the first row matching the conflict key after the
overwrite is the overwritten row. -/
theorem find?_overwrite_hit (p : ForecastRow → Bool) (d : DbInsert)
    (hp : ∀ r, p r = true ↔ rowKey r = insKey d) (store : List ForecastRow)
    (hpres : ∃ r ∈ store, rowKey r = insKey d) :
    ∃ id, (store.map (fun r => if rowKey r = insKey d then withId r.id d else r)).find? p =
      some (withId id d) := by
  induction store with
  | nil =>
    obtain ⟨r, hr, _⟩ := hpres
    cases hr
  | cons r rs ih =>
    by_cases h2 : rowKey r = insKey d
    · refine ⟨r.id, ?_⟩
      rw [List.map_cons, if_pos h2]
      exact List.find?_cons_of_pos _ ((hp _).mpr (rowKey_withId r.id d))
    · have hpr : ¬ p r = true := fun ht => h2 ((hp r).mp ht)
      rw [List.map_cons, if_neg h2]
      rw [List.find?_cons_of_neg _ hpr]
      apply ih
      obtain ⟨r2, hr2, hk2⟩ := hpres
      rcases List.mem_cons.mp hr2 with rfl | h3
      · exact absurd hk2 h2
      · exact ⟨r2, h3, hk2⟩

/-- After upserting `d`, the first row matching d's conflict key holds
exactly d's columns (with some row id). -/
theorem find?_upsert_hit (p : ForecastRow → Bool) (d : DbInsert)
    (hp : ∀ r, p r = true ↔ rowKey r = insKey d) (store : List ForecastRow) :
    ∃ id, (upsertRow store d).find? p = some (withId id d) := by
  by_cases hpres : ∃ r ∈ store, rowKey r = insKey d
  · rw [upsert_present store d hpres]
    exact find?_overwrite_hit p d hp store hpres
  · push_neg at hpres
    rw [upsert_absent store d hpres]
    have hskip : ∀ r ∈ store, ¬ p r = true :=
      fun r hr ht => hpres r hr ((hp r).mp ht)
    rw [find?_append_skip store _ p hskip]
    exact ⟨nextId store, List.find?_cons_of_pos _ ((hp _).mpr (rowKey_withId _ d))⟩

/-- Upserting a row with a different conflict key does not change what a
key lookup finds. -/
theorem find?_upsert_other (p : ForecastRow → Bool) (d : DbInsert)
    (hnp : ∀ r, p r = true → rowKey r ≠ insKey d) (store : List ForecastRow) :
    (upsertRow store d).find? p = store.find? p := by
  by_cases hpres : ∃ r ∈ store, rowKey r = insKey d
  · rw [upsert_present store d hpres]
    clear hpres
    induction store with
    | nil => rfl
    | cons r rs ih =>
      rw [List.map_cons]
      by_cases h2 : rowKey r = insKey d
      · have hpr : ¬ p r = true := fun ht => hnp r ht h2
        have hpw : ¬ p (withId r.id d) = true :=
          fun ht => hnp _ ht (rowKey_withId r.id d)
        rw [if_pos h2, List.find?_cons_of_neg _ hpw, List.find?_cons_of_neg _ hpr, ih]
      · rw [if_neg h2]
        cases hpr : p r
        · rw [List.find?_cons_of_neg _ (by simp [hpr]),
            List.find?_cons_of_neg _ (by simp [hpr]), ih]
        · rw [List.find?_cons_of_pos _ hpr, List.find?_cons_of_pos _ hpr]
  · push_neg at hpres
    rw [upsert_absent store d hpres]
    have hnew : ¬ p (withId (nextId store) d) = true :=
      fun ht => hnp _ ht (rowKey_withId _ d)
    exact find?_append_single store _ p hnew

/-- A kernel-evaluable upsert preserves the uniqueness invariant. -/
theorem upsert_unique (store : List ForecastRow) (d : DbInsert)
    (hu : UniqueStore store) : UniqueStore (upsertRow store d) := by
  by_cases hpres : ∃ r ∈ store, rowKey r = insKey d
  · rw [UniqueStore, upsert_present store d hpres, mapKeys_overwrite]
    exact hu
  · push_neg at hpres
    rw [UniqueStore, upsert_absent store d hpres, List.map_append, List.nodup_append]
    refine ⟨hu, by simp, ?_⟩
    intro k hk hk2
    simp only [List.map_cons, List.map_nil, List.mem_cons, List.not_mem_nil,
      or_false, rowKey_withId] at hk2
    obtain ⟨r, hr, hrk⟩ := List.mem_map.mp hk
    exact hpres r hr (by rw [hrk, hk2])

theorem foldl_upsert_unique (ds : List DbInsert) :
    ∀ store : List ForecastRow, UniqueStore store →
    UniqueStore (ds.foldl upsertRow store) := by
  induction ds with
  | nil => exact fun store hu => hu
  | cons d ds' ih =>
    intro store hu
    rw [List.foldl_cons]
    exact ih (upsertRow store d) (upsert_unique store d hu)

theorem foldl_upsert_other (p : ForecastRow → Bool) (k : String × String × ℕ)
    (hp : ∀ r, p r = true ↔ rowKey r = k) (ds : List DbInsert) :
    ∀ store : List ForecastRow, (∀ d ∈ ds, insKey d ≠ k) →
    (ds.foldl upsertRow store).find? p = store.find? p := by
  induction ds with
  | nil => exact fun store _ => rfl
  | cons d ds' ih =>
    intro store hds
    rw [List.foldl_cons]
    rw [ih (upsertRow store d) fun d2 h2 => hds d2 (List.mem_cons_of_mem d h2)]
    refine find?_upsert_other p d ?_ store
    intro r ht hk
    exact hds d (List.mem_cons_self d ds') (by rw [← hk, (hp r).mp ht])

/-- Every insert of a duplicate-free batch is found, with its own columns,
after the batch fold. -/
theorem foldl_upsert_hit (ds : List DbInsert) :
    ∀ (store : List ForecastRow) (d : DbInsert), d ∈ ds → (ds.map insKey).Nodup →
    ∃ id, findRowByKey (ds.foldl upsertRow store) (insKey d) = some (withId id d) := by
  induction ds with
  | nil =>
    intro store d hd
    cases hd
  | cons d2 ds' ih =>
    intro store d hd hnd
    rw [List.map_cons, List.nodup_cons] at hnd
    rw [List.foldl_cons]
    rcases List.mem_cons.mp hd with rfl | h2
    · obtain ⟨id, hid⟩ := find?_upsert_hit
        (fun r => decide (rowKey r = insKey d)) d (by intro r; simp) store
      refine ⟨id, ?_⟩
      rw [findRowByKey,
        foldl_upsert_other _ (insKey d) (by intro r; simp) ds'
          (upsertRow store d)
          (fun d3 h3 he => hnd.1 (List.mem_map.mpr ⟨d3, h3, he⟩)),
        hid]
    · exact ih (upsertRow store d2) d h2 hnd.2

/-! ### C10: save-then-lookup round trip -/

theorem jsFalsyStr_idem (o : Option String) :
    jsFalsyStr (jsFalsyStr o) = jsFalsyStr o := by
  cases o with
  | none => rfl
  | some s =>
    by_cases h : s = "" <;> simp [jsFalsyStr, h]

theorem jsFalsyNum_idem (o : Option ℚ) :
    jsFalsyNum (jsFalsyNum o) = jsFalsyNum o := by
  cases o with
  | none => rfl
  | some q =>
    by_cases h : q = 0 <;> simp [jsFalsyNum, h]

/-- A record with zero-valued windSpeed and precipitationChance and zero
humidity. -/
def fc0 : Forecast :=
  { id := none, city := "a", state := "b", forecastDate := 0
    temperature := 1, feelsLike := none, conditions := "c"
    description := none, precipitationChance := some 0
    humidity := some 0, windSpeed := some 0, iconCode := none }

/-- C10 counterexample: windSpeed = 0 and precipitationChance = 0 are NOT
mapped to NULL on write (the JS path goes through ?.toString(), and the
string "0" is truthy), and the subsequent lookup returns them as 0, not as
absent — contradicting the claim for those two fields. -/
theorem roundTrip_zero_counterexample :
    (mapToDatabase fc0).wind_speed = some 0 ∧
    (mapToDatabase fc0).precipitation_chance = some 0 ∧
    (findOneRepo (saveStore [] fc0) "a" "b" 0).map (fun r => r.windSpeed) =
      some (some 0) ∧
    (findOneRepo (saveStore [] fc0) "a" "b" 0).map
      (fun r => r.precipitationChance) = some (some 0) := by
  refine ⟨?_, ?_, ?_, ?_⟩ <;> decide

/-- Strip the row id of a returned record, keeping its attributes. -/
def stripId (f : Forecast) : Forecast := { f with id := none }

/-- C10 (amended): save-then-lookup normalizes rather than preserving
exactly: city/state come back lowercased; humidity = 0, an empty
description and an empty iconCode come back absent (their JS write paths
use the bare `x || null`, and the humidity read path re-checks
truthiness); but windSpeed, precipitationChance and feelsLike survive
unchanged — including the value 0 — because their write paths stringify
before the truthiness test; all remaining attributes are preserved. -/
theorem save_findOne_roundTrip (store : List ForecastRow) (f : Forecast) :
    (findOneRepo (saveStore store f) f.city f.state f.forecastDate).map stripId =
      some { id := none
             city := jsToLower f.city
             state := jsToLower f.state
             forecastDate := f.forecastDate
             temperature := f.temperature
             feelsLike := f.feelsLike
             conditions := f.conditions
             description := jsFalsyStr f.description
             precipitationChance := f.precipitationChance
             humidity := jsFalsyNum f.humidity
             windSpeed := f.windSpeed
             iconCode := jsFalsyStr f.iconCode } := by
  obtain ⟨id, hid⟩ := find?_upsert_hit
    (fun r => decide (r.city = jsToLower f.city ∧ r.state = jsToLower f.state ∧
      r.forecast_date = f.forecastDate))
    (mapToDatabase f)
    (by
      intro r
      simp [rowKey, insKey, mapToDatabase, Prod.ext_iff])
    store
  rw [findOneRepo, saveStore, hid]
  simp only [Option.map_some']
  congr 1
  simp [stripId, mapToDomain, mapToDatabase, withId, jsFalsyStr_idem, jsFalsyNum_idem]

/-! ### C7: batch save atomicity -/

/-- C7: saveMany is a single multi-row upsert statement, hence all-or-nothing.
If the batch holds two rows with the same conflict key — the one constraint
violation the statement cannot resolve — the whole statement fails and the
store is unchanged; otherwise it succeeds, keeps the uniqueness invariant,
and every record of the batch is persisted with its own columns. -/
theorem saveMany_atomic (store : List ForecastRow) (fs : List Forecast)
    (hu : UniqueStore store) :
    (¬ ((fs.map mapToDatabase).map insKey).Nodup →
      saveManyStore store fs = .error .batchConflict ∧
      storeAfterSaveMany store fs = store) ∧
    (((fs.map mapToDatabase).map insKey).Nodup →
      ∃ store2, saveManyStore store fs = .ok store2 ∧
        storeAfterSaveMany store fs = store2 ∧
        UniqueStore store2 ∧
        ∀ f ∈ fs, ∃ id,
          findRowByKey store2 (insKey (mapToDatabase f)) =
            some (withId id (mapToDatabase f))) := by
  constructor
  · intro hdup
    have h1 : saveManyStore store fs = .error .batchConflict := by
      simp only [saveManyStore]
      rw [if_neg hdup]
    refine ⟨h1, ?_⟩
    rw [storeAfterSaveMany, h1]
  · intro hnd
    have h1 : saveManyStore store fs = .ok ((fs.map mapToDatabase).foldl upsertRow store) := by
      simp only [saveManyStore]
      rw [if_pos hnd]
    refine ⟨(fs.map mapToDatabase).foldl upsertRow store, h1, ?_, ?_, ?_⟩
    · rw [storeAfterSaveMany, h1]
    · exact foldl_upsert_unique _ store hu
    · intro f hf
      exact foldl_upsert_hit (fs.map mapToDatabase) store (mapToDatabase f)
        (List.mem_map.mpr ⟨f, hf, rfl⟩) hnd

/-- fc2 with the same identity but different non-identity fields. -/
def fc2b : Forecast :=
  { id := none, city := "fresno", state := "california", forecastDate := 20417
    temperature := 25, feelsLike := some 24, conditions := "Sun"
    description := none, precipitationChance := none
    humidity := none, windSpeed := none, iconCode := none }

/-- Witness for C7: over the store [row0], the duplicate-free batch
[fc1, fc2] succeeds in full, while the batch [fc2, fc2b] (two rows with
the same identity) fails with no change to the store. -/
theorem saveMany_atomic_witness :
    UniqueStore [row0] ∧
    ((([fc1, fc2].map mapToDatabase).map insKey).Nodup →
      ∃ store2, saveManyStore [row0] [fc1, fc2] = .ok store2 ∧
        storeAfterSaveMany [row0] [fc1, fc2] = store2 ∧
        UniqueStore store2 ∧
        ∀ f ∈ [fc1, fc2], ∃ id,
          findRowByKey store2 (insKey (mapToDatabase f)) =
            some (withId id (mapToDatabase f))) ∧
    (saveManyStore [row0] [fc2, fc2b] = .error .batchConflict ∧
     storeAfterSaveMany [row0] [fc2, fc2b] = [row0]) :=
  ⟨by unfold UniqueStore; decide,
   (saveMany_atomic [row0] [fc1, fc2] (by unfold UniqueStore; decide)).2,
   (saveMany_atomic [row0] [fc2, fc2b] (by unfold UniqueStore; decide)).1
     (by decide)⟩

/-! ### C6: bucketing -/

theorem distinctKeys_aux_mem (l : List Sample) : ∀ (acc : List ℕ) (k : ℕ),
    (k ∈ l.foldl
        (fun ks s => if dayOf s.dt ∈ ks then ks else ks ++ [dayOf s.dt]) acc) ↔
      (k ∈ acc ∨ ∃ s ∈ l, dayOf s.dt = k) := by
  induction l with
  | nil => simp
  | cons s t ih =>
    intro acc k
    rw [List.foldl_cons]
    by_cases h : dayOf s.dt ∈ acc
    · rw [if_pos h, ih]
      constructor
      · rintro (hk | ⟨s2, hs2, hk2⟩)
        · exact Or.inl hk
        · exact Or.inr ⟨s2, List.mem_cons_of_mem s hs2, hk2⟩
      · rintro (hk | ⟨s2, hs2, hk2⟩)
        · exact Or.inl hk
        · rcases List.mem_cons.mp hs2 with rfl | hs3
          · exact Or.inl (hk2 ▸ h)
          · exact Or.inr ⟨s2, hs3, hk2⟩
    · rw [if_neg h, ih]
      constructor
      · rintro (hk | ⟨s2, hs2, hk2⟩)
        · rcases List.mem_append.mp hk with hk2 | hk2
          · exact Or.inl hk2
          · exact Or.inr ⟨s, List.mem_cons_self s t, (List.mem_singleton.mp hk2).symm⟩
        · exact Or.inr ⟨s2, List.mem_cons_of_mem s hs2, hk2⟩
      · rintro (hk | ⟨s2, hs2, hk2⟩)
        · exact Or.inl (List.mem_append.mpr (Or.inl hk))
        · rcases List.mem_cons.mp hs2 with rfl | hs3
          · exact Or.inl (List.mem_append.mpr (Or.inr (List.mem_singleton.mpr hk2.symm)))
          · exact Or.inr ⟨s2, hs3, hk2⟩

theorem distinctKeys_mem (l : List Sample) (k : ℕ) :
    k ∈ distinctKeys l ↔ ∃ s ∈ l, dayOf s.dt = k := by
  rw [distinctKeys, distinctKeys_aux_mem]
  simp

theorem distinctKeys_aux_nodup (l : List Sample) : ∀ acc : List ℕ, acc.Nodup →
    (l.foldl (fun ks s => if dayOf s.dt ∈ ks then ks else ks ++ [dayOf s.dt]) acc).Nodup := by
  induction l with
  | nil => exact fun acc h => h
  | cons s t ih =>
    intro acc hacc
    rw [List.foldl_cons]
    by_cases h : dayOf s.dt ∈ acc
    · rw [if_pos h]
      exact ih acc hacc
    · rw [if_neg h]
      refine ih _ ?_
      rw [List.nodup_append]
      exact ⟨hacc, List.nodup_singleton _, by
        intro a ha ha2
        rw [List.mem_singleton] at ha2
        exact h (ha2 ▸ ha)⟩

theorem distinctKeys_nodup (l : List Sample) : (distinctKeys l).Nodup :=
  distinctKeys_aux_nodup l [] List.nodup_nil

/-- A nonempty bucket whose samples all carry a weather entry produces a
record, dated by the bucket's key. -/
theorem mkDayRecord_ok (city state : String) (k : ℕ) (group : List Sample)
    (hne : group ≠ []) (hw : ∀ s ∈ group, s.weather ≠ []) :
    ∃ r, mkDayRecord city state k group = .ok r ∧ r.forecastDate = k := by
  cases group with
  | nil => exact absurd rfl hne
  | cons s rest =>
    have hwne := hw _ (selectNoon_mem s rest)
    cases hwe : (selectNoonForecast s rest).weather with
    | nil => exact absurd hwe hwne
    | cons w ws =>
      refine ⟨⟨none, jsToLower city, jsToLower state, k,
        round1 (selectNoonForecast s rest).temp,
        some (round1 (selectNoonForecast s rest).feels_like),
        w.main, some w.description,
        some ((jsRound ((selectNoonForecast s rest).pop * 100) : ℤ) : ℚ),
        some (selectNoonForecast s rest).humidity,
        some (round1 (selectNoonForecast s rest).wind_speed),
        some w.icon⟩, ?_, rfl⟩
      simp only [mkDayRecord, hwe]

theorem collectDays_ok (city state : String) (l : List Sample) :
    ∀ ks : List ℕ,
    (∀ k ∈ ks, ∃ r, mkDayRecord city state k (dayGroup l k) = .ok r ∧
      r.forecastDate = k) →
    ∃ rs, collectDays city state l ks = .ok rs ∧ rs.length = ks.length ∧
      rs.map (fun r => r.forecastDate) = ks := by
  intro ks
  induction ks with
  | nil => exact fun _ => ⟨[], rfl, rfl, rfl⟩
  | cons k kt ih =>
    intro h
    obtain ⟨r, hr, hrd⟩ := h k (List.mem_cons_self k kt)
    obtain ⟨rs, hrs, hlen, hmapd⟩ := ih fun k2 hk2 => h k2 (List.mem_cons_of_mem k hk2)
    refine ⟨r :: rs, ?_, by simp [hlen], by simp [hmapd, hrd]⟩
    rw [collectDays, hr, hrs]

/-- C6: for a nonempty sample sequence (whose samples are well-shaped, i.e.
carry at least one weather entry), the adapter succeeds and returns
exactly min(days, D) records, where D is the number of distinct calendar
days present; their dates are the first min(days, D) distinct days in
ascending order, hence strictly sorted with one record per day, and no
error occurs when D is below the requested count. -/
theorem toDomain_bucketing (l : List Sample) (city state : String) (days : ℕ)
    (hne : l ≠ []) (hw : ∀ s ∈ l, s.weather ≠ []) :
    ∃ recs, toDomain ⟨some l⟩ city state days = .ok recs ∧
      recs.length = min days (distinctKeys l).length ∧
      recs.map (fun r => r.forecastDate) =
        ((distinctKeys l).insertionSort (· ≤ ·)).take days ∧
      List.Sorted (· < ·) (recs.map (fun r => r.forecastDate)) ∧
      (distinctKeys l).Nodup ∧
      (∀ k, k ∈ distinctKeys l ↔ ∃ s ∈ l, dayOf s.dt = k) := by
  have hkeys : ∀ k ∈ ((distinctKeys l).insertionSort (· ≤ ·)).take days,
      ∃ r, mkDayRecord city state k (dayGroup l k) = .ok r ∧
        r.forecastDate = k := by
    intro k hk
    have hk2 : k ∈ (distinctKeys l).insertionSort (· ≤ ·) :=
      List.take_subset days _ hk
    have hk3 : k ∈ distinctKeys l := (List.perm_insertionSort _ _).mem_iff.mp hk2
    obtain ⟨s, hs, hds⟩ := (distinctKeys_mem l k).mp hk3
    refine mkDayRecord_ok city state k (dayGroup l k) ?_ ?_
    · exact List.ne_nil_of_mem (List.mem_filter.mpr ⟨hs, by simp [hds]⟩)
    · exact fun s2 hs2 => hw s2 (List.mem_of_mem_filter hs2)
  obtain ⟨recs, hrecs, hlen, hmapd⟩ := collectDays_ok city state l _ hkeys
  have hnodup : ((distinctKeys l).insertionSort (· ≤ ·)).Nodup :=
    (List.perm_insertionSort _ _).nodup_iff.mpr (distinctKeys_nodup l)
  have hsortlt : List.Sorted (· < ·) ((distinctKeys l).insertionSort (· ≤ ·)) :=
    (List.sorted_insertionSort _ _).lt_of_le hnodup
  refine ⟨recs, ?_, ?_, hmapd, ?_, distinctKeys_nodup l, distinctKeys_mem l⟩
  · cases l with
    | nil => exact absurd rfl hne
    | cons s t => exact hrecs
  · rw [hlen, List.length_take, (List.perm_insertionSort _ _).length_eq]
  · rw [hmapd]
    exact hsortlt.sublist (List.take_sublist days _)

/-- Two days of samples: day 20417 (hours 9 and 12) and day 20418 (hour 9). -/
def twoDays : List Sample :=
  [ { dt := 20417 * 86400 + 9 * 3600, temp := 15, feels_like := 14, humidity := 60
      weather := [{ main := "Clouds", description := "few clouds", icon := "02d" }]
      wind_speed := 4, pop := 0 }
  , { dt := 20417 * 86400 + 12 * 3600, temp := 18, feels_like := 17, humidity := 50
      weather := [{ main := "Clear", description := "clear sky", icon := "01d" }]
      wind_speed := 3, pop := 0 }
  , { dt := 20418 * 86400 + 9 * 3600, temp := 16, feels_like := 15, humidity := 55
      weather := [{ main := "Rain", description := "light rain", icon := "10d" }]
      wind_speed := 5, pop := 0 } ]

/-- Witness for C6: two distinct days of samples with three days requested
yield exactly two records, dated ascending, with no error. -/
theorem toDomain_bucketing_witness :
    (twoDays ≠ [] ∧ (∀ s ∈ twoDays, s.weather ≠ [])) ∧
    (∃ recs, toDomain ⟨some twoDays⟩ "Fresno" "California" 3 = .ok recs ∧
      recs.length = min 3 (distinctKeys twoDays).length ∧
      recs.map (fun r => r.forecastDate) =
        ((distinctKeys twoDays).insertionSort (· ≤ ·)).take 3 ∧
      List.Sorted (· < ·) (recs.map (fun r => r.forecastDate)) ∧
      (distinctKeys twoDays).Nodup ∧
      (∀ k, k ∈ distinctKeys twoDays ↔ ∃ s ∈ twoDays, dayOf s.dt = k)) :=
  ⟨⟨by decide, by decide⟩,
   toDomain_bucketing twoDays "Fresno" "California" 3 (by decide) (by decide)⟩

/-! ### C8: field mapping and rounding -/

/-- The claim's concrete sample: 2025-11-25 12:00 UTC, temp 18.53,
feels-like 17.24, humidity 45, wind 12.46, pop 0.10, condition Clear. -/
def noonSample : Sample :=
  { dt := 20417 * 86400 + 12 * 3600, temp := 18.53, feels_like := 17.24
    humidity := 45
    weather := [{ main := "Clear", description := "clear sky", icon := "01d" }]
    wind_speed := 12.46, pop := 0.10 }

unseal Rat.add Rat.mul Rat.inv Rat.sub Rat.ofScientific in
/-- C8: the selected sample's temperature, feels-like and wind speed are
rounded to one decimal (floor of x*10 + 1/2, divided by 10), the
precipitation fraction is rounded to an integer percentage, the first
condition label becomes conditions, and humidity and the icon code pass
through unmodified; on the claim's concrete sample this yields 18.5 /
17.2 / 12.5 / 10 / 45 / Clear. -/
theorem toDomain_rounding :
    (∀ (city state : String) (k : ℕ) (s : Sample) (rest : List Sample)
        (w : WeatherCond) (ws : List WeatherCond),
      (selectNoonForecast s rest).weather = w :: ws →
      mkDayRecord city state k (s :: rest) = .ok
        { id := none
          city := jsToLower city
          state := jsToLower state
          forecastDate := k
          temperature :=
            (((selectNoonForecast s rest).temp * 10 + 1/2).floor : ℚ) / 10
          feelsLike :=
            some ((((selectNoonForecast s rest).feels_like * 10 + 1/2).floor : ℚ) / 10)
          conditions := w.main
          description := some w.description
          precipitationChance :=
            some ((((selectNoonForecast s rest).pop * 100 + 1/2).floor : ℤ) : ℚ)
          humidity := some (selectNoonForecast s rest).humidity
          windSpeed :=
            some ((((selectNoonForecast s rest).wind_speed * 10 + 1/2).floor : ℚ) / 10)
          iconCode := some w.icon }) ∧
    toDomain ⟨some [noonSample]⟩ "Fresno" "California" 3 = .ok
      [{ id := none, city := "fresno", state := "california"
         forecastDate := 20417, temperature := 18.5, feelsLike := some 17.2
         conditions := "Clear", description := some "clear sky"
         precipitationChance := some 10, humidity := some 45
         windSpeed := some 12.5, iconCode := some "01d" }] := by
  constructor
  · intro city state k s rest w ws hwe
    simp only [mkDayRecord, hwe, round1, jsRound]
  · rfl

/-- Witness for C8 at the concrete noon sample (its weather list is the
single Clear entry). -/
theorem toDomain_rounding_witness :
    (selectNoonForecast noonSample []).weather =
      { main := "Clear", description := "clear sky", icon := "01d" } :: [] ∧
    mkDayRecord "Fresno" "California" 20417 [noonSample] = .ok
      { id := none
        city := jsToLower "Fresno"
        state := jsToLower "California"
        forecastDate := 20417
        temperature :=
          (((selectNoonForecast noonSample []).temp * 10 + 1/2).floor : ℚ) / 10
        feelsLike :=
          some ((((selectNoonForecast noonSample []).feels_like * 10 + 1/2).floor : ℚ) / 10)
        conditions := "Clear"
        description := some "clear sky"
        precipitationChance :=
          some ((((selectNoonForecast noonSample []).pop * 100 + 1/2).floor : ℤ) : ℚ)
        humidity := some (selectNoonForecast noonSample []).humidity
        windSpeed :=
          some ((((selectNoonForecast noonSample []).wind_speed * 10 + 1/2).floor : ℚ) / 10)
        iconCode := some "01d" } :=
  ⟨rfl, toDomain_rounding.1 "Fresno" "California" 20417 noonSample []
    { main := "Clear", description := "clear sky", icon := "01d" } [] rfl⟩

/-! ### C9: invalid and malformed payloads -/

/-- A shape-malformed sample: its weather-condition list is empty. -/
def badSample : Sample :=
  { dt := 0, temp := 1, feels_like := 1, humidity := 1, weather := []
    wind_speed := 1, pop := 0 }

/-- C9 counterexample: a payload whose one sample is shape-malformed (empty
weather list) makes the adapter fail with the untyped runtime error of
duck-typed field access, not with the invalid-response error. -/
theorem toDomain_malformed_counterexample :
    toDomain ⟨some [badSample]⟩ "a" "b" 3 = .error .typeErr ∧
    (Except.error AdapterErr.typeErr : Except AdapterErr (List Forecast)) ≠
      .error .invalidResponse := by
  constructor
  · rfl
  · intro h
    exact AdapterErr.noConfusion (Except.error.inj h)

/-- C9 (amended): a payload with a missing or empty sample list fails with
the invalid-response error and never yields records; shape-malformed
samples also fail without yielding records, but with an untyped runtime
error instead. -/
theorem toDomain_invalid_payload (resp : RawResponse) (city state : String)
    (days : ℕ) (h : resp.list = none ∨ resp.list = some []) :
    toDomain resp city state days = .error .invalidResponse := by
  rcases h with h | h <;> simp [toDomain, h]

/-- Witness for C9 at the missing-list payload. -/
theorem toDomain_invalid_payload_witness :
    ((RawResponse.mk none).list = none ∨ (RawResponse.mk none).list = some []) ∧
    toDomain ⟨none⟩ "a" "b" 3 = .error .invalidResponse :=
  ⟨Or.inl rfl, toDomain_invalid_payload ⟨none⟩ "a" "b" 3 (Or.inl rfl)⟩
